import Mathlib

/-!
Verification of the crates.io backfill pipeline binaries
(src/bin/backfill-edition.rs, backfill-crate-size.rs, backfill-lib-bin.rs,
backfill-features.rs, backfill-version-metadata.rs, backfill-links.rs).

The development shallowly embeds, straight from the Rust source:
  * the Batch Compiler step of each binary (CSV journal -> chunked
    multi-row SQL update statements),
  * the journal readers (read_csv) and the resolved-set filter,
  * the worker step that inspects one artifact and either sends a
    journal entry to the writer channel or drops the item, and
  * the sort-then-render step of the links backfill.

A journal record, as parsed by the csv crate, is a list of string fields.
Note that the journal writers are configured with has_headers(false),
while the readers in backfill-edition.rs, backfill-crate-size.rs and
backfill-lib-bin.rs use the csv::Reader defaults, which treat the first
record of the file as a header row and skip it.  This asymmetry is
visible in several theorems below.
-/

/-- One raw CSV record: the list of its string fields. -/
abbrev Rec := List String

/-- Fuel-indexed worker for `chunksOf`; structural recursion on the fuel so
that the kernel can evaluate it.  As long as the fuel dominates the list
length it produces the groups of `Itertools::chunks`: repeatedly take the
next `n` elements.  The group size is `1 + (n-1)`, so for `n = 0` it
behaves like `n = 1`; all claims about chunking assume `0 < n`, matching
`Itertools::chunks`, which panics on a zero chunk size. -/
def chunksOfGo (n : Nat) : Nat → List α → List (List α)
  | _, [] => []
  | 0, _ :: _ => []
  | fuel + 1, x :: xs => (x :: xs.take (n - 1)) :: chunksOfGo n fuel (xs.drop (n - 1))

/-- Model of `iter.chunks(n)` from the itertools crate, as used by every
Batch Compiler step: partition a list into consecutive groups of `n`
elements, the last group possibly smaller. -/
def chunksOf (n : Nat) (l : List α) : List (List α) :=
  chunksOfGo n l.length l

theorem chunksOfGo_eq (n fuel : Nat) (l : List α) (hf : l.length ≤ fuel + 1)
    (hl : l ≠ []) :
    chunksOfGo n (fuel + 1) l = (l.take (1 + (n - 1))) :: chunksOfGo n fuel (l.drop (1 + (n - 1))) := by
  cases l with
  | nil => exact absurd rfl hl
  | cons x xs =>
    simp only [chunksOfGo, List.take_succ_cons, List.drop_succ_cons]
    have h1 : (1 : Nat) + (n - 1) = (n - 1) + 1 := by omega
    simp [h1]

theorem chunksOfGo_fuel (n : Nat) (fuel₁ fuel₂ : Nat) (l : List α)
    (h₁ : l.length ≤ fuel₁) (h₂ : l.length ≤ fuel₂) :
    chunksOfGo n fuel₁ l = chunksOfGo n fuel₂ l := by
  induction fuel₁ generalizing fuel₂ l with
  | zero =>
    have : l = [] := by
      cases l with
      | nil => rfl
      | cons x xs => simp at h₁
    subst this
    cases fuel₂ <;> rfl
  | succ fuel ih =>
    cases l with
    | nil => cases fuel₂ <;> rfl
    | cons x xs =>
      cases fuel₂ with
      | zero => simp at h₂
      | succ fuel₂ =>
        simp only [chunksOfGo]
        congr 1
        apply ih
        · have := List.length_drop (n - 1) xs
          simp at h₁ ⊢
          omega
        · have := List.length_drop (n - 1) xs
          simp at h₂ ⊢
          omega

theorem chunksOf_nil (n : Nat) : chunksOf n ([] : List α) = [] := rfl

theorem chunksOf_cons (n : Nat) (x : α) (xs : List α) :
    chunksOf n (x :: xs) = (x :: xs.take (n - 1)) :: chunksOf n (xs.drop (n - 1)) := by
  simp only [chunksOf, List.length_cons, chunksOfGo]
  congr 1
  apply chunksOfGo_fuel
  · have := List.length_drop (n - 1) xs
    omega
  · exact le_rfl

/-- Auxiliary induction principle: strong induction on the length of a list. -/
theorem list_length_induction {motive : List α → Prop}
    (h : ∀ l, (∀ l' : List α, l'.length < l.length → motive l') → motive l) :
    ∀ l, motive l := by
  intro l
  generalize hlen : l.length = len
  induction len using Nat.strong_induction_on generalizing l with
  | _ len ih =>
    apply h
    intro l' hl'
    exact ih l'.length (by omega) l' rfl

/-- Concatenating the chunks recovers the original list. -/
theorem chunksOf_flatten (n : Nat) (l : List α) : (chunksOf n l).flatten = l := by
  induction l using list_length_induction with
  | h l ih =>
    cases l with
    | nil => rfl
    | cons x xs =>
      rw [chunksOf_cons]
      have ihd := ih (xs.drop (n - 1)) (by simp; omega)
      simp [ihd]

/-- Every chunk is nonempty and, for a positive chunk size, contains at most
`n` elements. -/
theorem chunksOf_length_le (n : Nat) (hn : 0 < n) (l : List α) :
    ∀ b ∈ chunksOf n l, b.length ≤ n := by
  induction l using list_length_induction with
  | h l ih =>
    cases l with
    | nil => intro b hb; simp [chunksOf_nil] at hb
    | cons x xs =>
      rw [chunksOf_cons]
      intro b hb
      rcases List.mem_cons.mp hb with hb | hb
      · subst hb
        simp only [List.length_cons]
        have := List.length_take (n - 1) xs
        omega
      · exact ih (xs.drop (n - 1)) (by simp; omega) b hb

/-- All chunks except possibly the last contain exactly `n` elements. -/
theorem chunksOf_dropLast_length (n : Nat) (hn : 0 < n) (l : List α) :
    ∀ b ∈ (chunksOf n l).dropLast, b.length = n := by
  induction l using list_length_induction with
  | h l ih =>
    cases l with
    | nil => intro b hb; simp [chunksOf_nil] at hb
    | cons x xs =>
      rw [chunksOf_cons]
      intro b hb
      cases hrest : chunksOf n (xs.drop (n - 1)) with
      | nil => rw [hrest] at hb; simp at hb
      | cons c cs =>
        rw [hrest, List.dropLast_cons_of_ne_nil (by simp)] at hb
        rcases List.mem_cons.mp hb with hb | hb
        · subst hb
          have hne : xs.drop (n - 1) ≠ [] := by
            intro hd
            rw [hd] at hrest
            simp [chunksOf_nil] at hrest
          have hlen : n - 1 ≤ xs.length := by
            by_contra hcon
            exact hne (List.drop_eq_nil_of_le (by omega))
          simp only [List.length_cons]
          rw [List.length_take]
          omega
        · rw [← hrest] at hb
          exact ih (xs.drop (n - 1)) (by simp; omega) b hb

/-- Membership in a chunk implies membership in the original list. -/
theorem chunksOf_mem (n : Nat) (l : List α) (b : List α) (r : α)
    (hb : b ∈ chunksOf n l) (hr : r ∈ b) : r ∈ l := by
  have : r ∈ (chunksOf n l).flatten := List.mem_flatten.mpr ⟨b, hb, hr⟩
  rwa [chunksOf_flatten] at this

/-- For a duplicate-free list the chunks are pairwise disjoint. -/
theorem chunksOf_pairwise_disjoint (n : Nat) (l : List α) (hl : l.Nodup) :
    (chunksOf n l).Pairwise List.Disjoint := by
  have h : (chunksOf n l).flatten.Nodup := by rwa [chunksOf_flatten]
  exact (List.nodup_flatten.mp h).2

/-!
Batch Compiler, batch structure.

backfill-edition.rs, lines 134-140: the SQL generation step opens the CSV
journal with `csv::Reader::from_reader` (default configuration, so the
first record is consumed as a header), keeps the records whose second
field differs from the sentinel "NULL", and groups them with
`.chunks(args.chunk_size)`.

backfill-crate-size.rs, lines 117-123: same, without the sentinel filter
(and with the hardcoded CHUNK_SIZE = 10000).
-/

/-- Field access `&record[i]` on a parsed CSV record. -/
def recField (r : Rec) (i : Nat) : String := r.getD i ""

/-- Records of the edition journal that survive the sentinel filter
`|record| &record[1] != "NULL"`, after the header skip of the default
csv reader (`rows.drop 1`). -/
def editionEntries (rows : List Rec) : List Rec :=
  (rows.drop 1).filter (fun r => recField r 1 != "NULL")

/-- Batches produced by the edition Batch Compiler (backfill-edition.rs,
lines 134-140) on a well-formed journal. -/
def editionBatches (rows : List Rec) (chunkSize : Nat) : List (List Rec) :=
  chunksOf chunkSize (editionEntries rows)

/-- Batches produced by the crate-size Batch Compiler
(backfill-crate-size.rs, lines 117-123) on a well-formed journal: no
sentinel filter, header skip only. -/
def crateSizeBatches (rows : List Rec) (chunkSize : Nat) : List (List Rec) :=
  chunksOf chunkSize (rows.drop 1)

/-- C1, counterexample: the compile step does not deduplicate by record
id.  A journal whose physical contents hold the record (1, A) three times
(the first copy is consumed as the CSV header) compiles, with chunk size
1, into two batches that both contain the entry ["1", "A"]; the batches
are not pairwise disjoint and the batch contents are not the
deduplicated entry set. -/
theorem C1_counterexample :
    editionBatches [["1", "A"], ["1", "A"], ["1", "A"]] 1 = [[["1", "A"]], [["1", "A"]]] ∧
    ¬ (editionBatches [["1", "A"], ["1", "A"], ["1", "A"]] 1).Pairwise List.Disjoint := by
  constructor
  · rfl
  · intro h
    rw [show editionBatches [["1", "A"], ["1", "A"], ["1", "A"]] 1
          = [[["1", "A"]], [["1", "A"]]] from rfl] at h
    have h1 := (List.pairwise_cons.mp h).1 [["1", "A"]] (List.mem_cons_self _ _)
    exact h1 (List.mem_cons_self _ _) (List.mem_cons_self _ _)

/-- C1, amended: the compile step performs no deduplication.  After the
default csv reader consumes the first journal record as a header, and
after the sentinel filter, the remaining records are grouped in order
into chunks: the concatenation of all batches equals exactly that
remaining record sequence, and whenever that sequence is duplicate-free
(the situation the resolved-set filter maintains across runs) the batches
are pairwise disjoint, so their union is the deduplicated entry set.  The
same holds for the crate-size compiler, without the sentinel filter. -/
theorem C1_batches_partition (rows : List Rec) (n : Nat) :
    (editionBatches rows n).flatten = editionEntries rows ∧
    ((editionEntries rows).Nodup → (editionBatches rows n).Pairwise List.Disjoint) ∧
    (crateSizeBatches rows n).flatten = rows.drop 1 ∧
    ((rows.drop 1).Nodup → (crateSizeBatches rows n).Pairwise List.Disjoint) := by
  refine ⟨chunksOf_flatten n _, fun h => chunksOf_pairwise_disjoint n _ h,
    chunksOf_flatten n _, fun h => chunksOf_pairwise_disjoint n _ h⟩

/-- C1, witness: the amended theorem applied to a concrete journal. -/
theorem C1_batches_partition_witness :
    (editionBatches [["0", "H"], ["1", "A"], ["2", "NULL"], ["3", "B"]] 2).flatten
      = editionEntries [["0", "H"], ["1", "A"], ["2", "NULL"], ["3", "B"]] ∧
    (editionBatches [["0", "H"], ["1", "A"], ["2", "NULL"], ["3", "B"]] 2).Pairwise List.Disjoint :=
  ⟨(C1_batches_partition [["0", "H"], ["1", "A"], ["2", "NULL"], ["3", "B"]] 2).1,
   (C1_batches_partition [["0", "H"], ["1", "A"], ["2", "NULL"], ["3", "B"]] 2).2.1 (by decide)⟩

/-- C5: every batch produced by the Batch Compiler holds at most
`chunkSize` records, and every batch except possibly the last holds
exactly `chunkSize` records; shown for the edition and the crate-size
compile steps. -/
theorem C5_batch_size_bound (rows : List Rec) (n : Nat) (hn : 0 < n) :
    (∀ b ∈ editionBatches rows n, b.length ≤ n) ∧
    (∀ b ∈ (editionBatches rows n).dropLast, b.length = n) ∧
    (∀ b ∈ crateSizeBatches rows n, b.length ≤ n) ∧
    (∀ b ∈ (crateSizeBatches rows n).dropLast, b.length = n) :=
  ⟨chunksOf_length_le n hn _, chunksOf_dropLast_length n hn _,
   chunksOf_length_le n hn _, chunksOf_dropLast_length n hn _⟩

/-- C5, witness: the bound evaluated on a concrete journal of five
entries with chunk size 2 (batches of sizes 2, 2, 1). -/
theorem C5_batch_size_bound_witness :
    (0 : Nat) < 2 ∧
    (∀ b ∈ editionBatches [["0", "H"], ["1", "A"], ["2", "B"], ["3", "C"], ["4", "D"], ["5", "E"]] 2,
      b.length ≤ 2) :=
  ⟨by decide,
   (C5_batch_size_bound [["0", "H"], ["1", "A"], ["2", "B"], ["3", "C"], ["4", "D"], ["5", "E"]] 2
     (by decide)).1⟩

/-!
Batch Compiler, statement rendering.

backfill-edition.rs, lines 144-160; backfill-crate-size.rs, lines
127-143; backfill-lib-bin.rs, lines 141-166.  Each batch becomes one
multi-row update statement; the embedding concatenates exactly the texts
passed to the `writeln!` and `write!` calls.  Apostrophes and braces in
string literals are written with \x27 escapes.
-/

/-- Boolean check that `pat` is a prefix of the second list. -/
def isPrefixOfB [BEq α] : List α → List α → Bool
  | [], _ => true
  | _ :: _, [] => false
  | x :: xs, y :: ys => x == y && isPrefixOfB xs ys

/-- Boolean check that `pat` occurs as a contiguous run inside the second
list. -/
def listContainsB [BEq α] (pat : List α) : List α → Bool
  | [] => pat.isEmpty
  | y :: ys => isPrefixOfB pat (y :: ys) || listContainsB pat ys

/-- A where-clause (or any SQL text) re-checks that a target field is
still unset when it carries the guard shape `<column> is null` used by
backfill-lib-bin.rs, line 161. -/
def hasUnsetGuard (s : String) : Bool :=
  listContainsB "is null".data s.data

/-- Tuple text `    ({}, {})` of one edition batch record
(backfill-edition.rs, line 153). -/
def editionTuple (r : Rec) : String :=
  "    (" ++ recField r 0 ++ ", " ++ recField r 1 ++ ")"

/-- Values list of one edition batch: `,\n` is written before every tuple
except the first (backfill-edition.rs, lines 149-154). -/
def editionValues (b : List Rec) : String :=
  String.intercalate ",\n" (b.map editionTuple)

/-- Leading lines of an edition update statement (backfill-edition.rs,
lines 145-147). -/
def editionStmtHeader : String :=
  "update versions\nset edition = tmp.edition\nfrom (values\n"

/-- Where clause of an edition update statement (backfill-edition.rs,
line 158): the primary-key join only. -/
def editionWhereLine : String :=
  "where id = tmp.version_id;"

/-- Trailing lines of an edition update statement (backfill-edition.rs,
lines 156-159). -/
def editionStmtFooter : String :=
  "\n) as tmp (version_id, edition)\n" ++ editionWhereLine ++ "\n\n"

/-- One rendered edition update statement for a batch. -/
def renderEditionBatch (b : List Rec) : String :=
  editionStmtHeader ++ editionValues b ++ editionStmtFooter

/-- Tuple text of one crate-size batch record (backfill-crate-size.rs,
line 136). -/
def crateSizeTuple (r : Rec) : String :=
  "    (" ++ recField r 0 ++ ", " ++ recField r 1 ++ ")"

/-- Values list of one crate-size batch (backfill-crate-size.rs, lines
132-137). -/
def crateSizeValues (b : List Rec) : String :=
  String.intercalate ",\n" (b.map crateSizeTuple)

/-- Leading lines of a crate-size update statement (backfill-crate-size.rs,
lines 128-130). -/
def crateSizeStmtHeader : String :=
  "update versions\nset crate_size = tmp.crate_size\nfrom (values\n"

/-- Where clause of a crate-size update statement (backfill-crate-size.rs,
line 141): the primary-key join only. -/
def crateSizeWhereLine : String :=
  "where id = tmp.version_id;"

/-- Trailing lines of a crate-size update statement
(backfill-crate-size.rs, lines 139-142). -/
def crateSizeStmtFooter : String :=
  "\n) as tmp (version_id, crate_size)\n" ++ crateSizeWhereLine ++ "\n\n"

/-- One rendered crate-size update statement for a batch. -/
def renderCrateSizeBatch (b : List Rec) : String :=
  crateSizeStmtHeader ++ crateSizeValues b ++ crateSizeStmtFooter

/-- Chunk size hardcoded in backfill-lib-bin.rs, line 26. -/
def LIB_BIN_CHUNK_SIZE : Nat := 1000

/-- One line of the lib-bin values list (backfill-lib-bin.rs, lines
149-156): the line for record index `i` carries a trailing comma whenever
`i < CHUNK_SIZE - 1`, a bound taken from the constant chunk size rather
than from the actual batch length. -/
def libBinTupleLine (chunkSize i : Nat) (r : Rec) : String :=
  "    (" ++ recField r 0 ++ ", \x27" ++ recField r 1 ++ "\x27::bool, \x27"
    ++ recField r 2 ++ "\x27::text[])"
    ++ (if i < chunkSize - 1 then ",\n" else "\n")

/-- Values list of one lib-bin batch. -/
def libBinValues (b : List Rec) : String :=
  String.join (b.enum.map (fun p => libBinTupleLine LIB_BIN_CHUNK_SIZE p.1 p.2))

/-- Leading lines of a lib-bin update statement (backfill-lib-bin.rs,
lines 142-147). -/
def libBinStmtHeader : String :=
  "update versions\nset has_lib = tmp.has_lib, bin_names = tmp.bin_names\nfrom (values\n"

/-- Where clause of a lib-bin update statement (backfill-lib-bin.rs,
lines 159-162): primary-key join plus the still-unset guard. -/
def libBinWhereLine : String :=
  "where id = tmp.version_id and versions.has_lib is null;"

/-- Trailing lines of a lib-bin update statement (backfill-lib-bin.rs,
lines 158-165). -/
def libBinStmtFooter : String :=
  ") as tmp (version_id, has_lib, bin_names)\n" ++ libBinWhereLine ++ "\n\n"

/-- One rendered lib-bin update statement for a batch. -/
def renderLibBinBatch (b : List Rec) : String :=
  libBinStmtHeader ++ libBinValues b ++ libBinStmtFooter

set_option maxRecDepth 4000 in
/-- C2: evaluation at the failing input.  A final lib-bin batch holding
fewer records than CHUNK_SIZE (here one record) renders with a comma
after its final tuple, directly before the closing parenthesis of the
values list, so the statement is not a well-formed multi-row update.  The
claim says no separator follows the final tuple. -/
theorem C2_trailing_comma :
    renderLibBinBatch [["42", "t", "foo"]]
      = "update versions\nset has_lib = tmp.has_lib, bin_names = tmp.bin_names\nfrom (values\n"
        ++ "    (42, \x27t\x27::bool, \x27foo\x27::text[]),\n"
        ++ ") as tmp (version_id, has_lib, bin_names)\nwhere id = tmp.version_id and versions.has_lib is null;\n\n" := by
  decide

set_option maxRecDepth 4000 in
/-- C3, counterexample: the update statement rendered by the edition
Batch Compiler for a concrete batch contains no condition of the guard
shape `<column> is null` anywhere, so it does not re-check that the
target field is still unset; the claim requires such a guard in every
pipeline variant. -/
theorem C3_counterexample :
    hasUnsetGuard (renderEditionBatch [["7", "\x272018\x27"]]) = false := by
  decide

/-- C3, amended: only the lib-bin variant guards its update against a
concurrent writer: its where clause is the primary-key join plus
`versions.has_lib is null`, while the edition and crate-size variants
join on the primary key alone with no still-unset guard. -/
theorem C3_guard_only_lib_bin (b : List Rec) :
    renderLibBinBatch b
      = libBinStmtHeader ++ libBinValues b
        ++ (") as tmp (version_id, has_lib, bin_names)\n" ++ libBinWhereLine ++ "\n\n") ∧
    renderEditionBatch b
      = editionStmtHeader ++ editionValues b
        ++ ("\n) as tmp (version_id, edition)\n" ++ editionWhereLine ++ "\n\n") ∧
    renderCrateSizeBatch b
      = crateSizeStmtHeader ++ crateSizeValues b
        ++ ("\n) as tmp (version_id, crate_size)\n" ++ crateSizeWhereLine ++ "\n\n") ∧
    hasUnsetGuard libBinWhereLine = true ∧
    hasUnsetGuard editionWhereLine = false ∧
    hasUnsetGuard crateSizeWhereLine = false :=
  ⟨rfl, rfl, rfl, by decide, by decide, by decide⟩

/-!
Batch Compiler, streaming execution and failure behavior
(backfill-edition.rs, lines 133-160).

The SQL generation step is a lazy pipeline: `rdr.records()` yields
parsed records one at a time, `.map(|record| record.unwrap())` panics at
the first malformed record, and the chunking plus the `writeln!` calls
interleave with that pull: the inner per-chunk loop detects the chunk
boundary by pulling the next record, so the panic always fires before
the closing lines of the current statement.  The embedding walks the
parsed record stream
(`Except Unit Rec`: a record, or a CSV format error) while tracking how
many records of the current chunk are already written; the Bool result
records whether the run aborted (panicked).  The default csv reader
consumes the first physical record as the header and flags a later
record as malformed when its field count differs from the header
(`UnequalLengths`).
-/

/-- Parsed record stream of the default csv reader: first record is the
header, later records must match its field count. -/
def parseStream (rows : List Rec) : List (Except Unit Rec) :=
  match rows with
  | [] => []
  | hdr :: rest =>
    rest.map (fun r => if r.length = hdr.length then Except.ok r else Except.error ())

/-- Streaming walk of the edition SQL generation loop.  The counter is
the number of records already written into the currently open chunk
(`0` when no chunk is open).  Output is the concatenation of all texts
written so far; the flag is true when the walk hit a malformed record
and the process panicked.

The chunking machinery of `Itertools::chunks` discovers the end of a
chunk only by pulling the next underlying record inside the inner
per-chunk loop, so the closing lines of a full chunk (writeln calls at
backfill-edition.rs, lines 156-159) execute only after the record
following the chunk has been pulled successfully (the `i ≥ n` branch of
the ok case) or after the stream has ended (the nil case with an open
chunk).  A malformed record therefore panics inside the inner loop,
before any closing lines, wherever it stands — also directly after a
full chunk — so the error case emits nothing in every state. -/
def ewalk (n : Nat) : List (Except Unit Rec) → Nat → String × Bool
  | [], i => (if i = 0 then "" else editionStmtFooter, false)
  | Except.error _ :: _, _ => ("", true)
  | Except.ok r :: rest, i =>
    if recField r 1 == "NULL" then ewalk n rest i
    else if i = 0 then
      let p := ewalk n rest 1
      (editionStmtHeader ++ editionTuple r ++ p.1, p.2)
    else if i < n then
      let p := ewalk n rest (i + 1)
      (",\n" ++ editionTuple r ++ p.1, p.2)
    else
      let p := ewalk n rest 1
      (editionStmtFooter ++ editionStmtHeader ++ editionTuple r ++ p.1, p.2)

/-- Whole SQL generation step of backfill-edition.rs on the raw journal
rows: parse with the header-consuming default reader, then stream into
chunked update statements. -/
def compileEdition (rows : List Rec) (n : Nat) : String × Bool :=
  ewalk n (parseStream rows) 0

/-- Everything emitted up to a malformed record is independent of the
records standing after that malformed record: the walk stops there with
the abort flag set. -/
theorem ewalk_append_error (n : Nat) (gs : List Rec)
    (rest₁ rest₂ : List (Except Unit Rec)) (i : Nat) :
    ewalk n (gs.map Except.ok ++ Except.error () :: rest₁) i
      = ((ewalk n (gs.map Except.ok ++ Except.error () :: rest₂) i).1, true) := by
  induction gs generalizing i with
  | nil => simp [ewalk]
  | cons g gs ih =>
    by_cases hnull : (recField g 1 == "NULL") = true
    · simpa only [List.map_cons, List.cons_append, ewalk, hnull, if_true] using ih i
    · by_cases hi0 : i = 0
      · simp only [List.map_cons, List.cons_append, ewalk, hnull, hi0, if_true,
          Bool.false_eq_true, if_false, List.append_eq, ih 1]
      · by_cases hin : i < n
        · simp only [List.map_cons, List.cons_append, ewalk, hnull, hi0, hin, if_true,
            Bool.false_eq_true, if_false, List.append_eq, ih (i + 1)]
        · simp only [List.map_cons, List.cons_append, ewalk, hnull, hi0, hin, if_true,
            Bool.false_eq_true, if_false, List.append_eq, ih 1]

/-- C4, counterexample: a journal whose third physical record has the
wrong column count aborts the run, but the SQL text generated before the
panic has already been written to the output file: the produced output
is a non-empty, incomplete update statement, not an empty output. -/
theorem C4_counterexample :
    (compileEdition [["1", "A"], ["2", "B"], ["3"]] 1000).2 = true ∧
    (compileEdition [["1", "A"], ["2", "B"], ["3"]] 1000).1
      = "update versions\nset edition = tmp.edition\nfrom (values\n    (2, B)" ∧
    (compileEdition [["1", "A"], ["2", "B"], ["3"]] 1000).1 ≠ "" := by
  refine ⟨rfl, by decide, by decide⟩

/-- C4, amended: when the journal contains a record whose field count
differs from the header record, SQL generation aborts with the panic
flag set, and the emitted output is exactly the text generated from the
records before the malformed one (an incomplete statement in general):
records after the malformed one are never read, and the output is not in
general empty. -/
theorem C4_abort_truncates (hdr : Rec) (good : List Rec) (bad : Rec)
    (rest : List Rec) (n : Nat)
    (hgood : ∀ r ∈ good, r.length = hdr.length) (hbad : bad.length ≠ hdr.length) :
    compileEdition (hdr :: (good ++ bad :: rest)) n
      = ((compileEdition (hdr :: (good ++ [bad])) n).1, true) := by
  unfold compileEdition parseStream
  simp only [List.map_append, List.map_cons, List.map_nil]
  have hg : (good.map fun r =>
      if r.length = hdr.length then (Except.ok r : Except Unit Rec) else Except.error ())
      = good.map Except.ok := by
    apply List.map_congr_left
    intro r hr
    simp [hgood r hr]
  rw [hg, if_neg hbad]
  exact ewalk_append_error n good _ _ 0

/-- C4, witness: the amended theorem applied to a concrete journal with
one good record, the malformed record ["3"], and one unread trailing
record. -/
theorem C4_abort_truncates_witness :
    compileEdition [["1", "E"], ["2", "X"], ["3"], ["4", "Y"]] 1000
      = ((compileEdition [["1", "E"], ["2", "X"], ["3"]] 1000).1, true) :=
  C4_abort_truncates ["1", "E"] [["2", "X"]] ["3"] [["4", "Y"]] 1000
    (by decide) (by decide)

/-!
Run-level model of one backfill-edition run (backfill-edition.rs,
lines 44-131, and read_csv, lines 165-184).

A well-formed journal row is the pair (version_id, edition field text)
as written by the CSV writer thread (lines 78-86): the second component
is either a quoted edition string or the sentinel "NULL".  A candidate
is one row of the database query (id, crate name, version number).  The
worker (lines 97-128) opens the crate file, processes the tarball and on
success sends one row to the writer channel; on failure it sends
nothing.  The writer appends the received rows to the journal file;
membership statements below are independent of the arrival order, which
the embedding fixes to candidate order.
-/

/-- One row of the candidate query (backfill-edition.rs, lines 47-52). -/
structure Candidate where
  id : Int
  name : String
  num : String
deriving DecidableEq

/-- One well-formed journal row: (version_id, edition field text). -/
abbrev EditionRow := Int × String

/-- Resolved ids of an already-open well-formed journal file, as
collected by read_csv (backfill-edition.rs, lines 174-181): the default
csv reader consumes the first record as a header, the first field of
every later record is parsed as the id. -/
def readCsvIds (rows : List EditionRow) : List Int :=
  (rows.drop 1).map Prod.fst

/-- Outcome of opening the journal file in read_csv. -/
inductive FileOpenResult
  | found (rows : List EditionRow)
  | notFound
  | openError

/-- read_csv (backfill-edition.rs, lines 165-184): a missing journal
file yields the empty resolved set, any other open failure is an
error. -/
def read_csv : FileOpenResult → Except Unit (List Int)
  | FileOpenResult.found rows => Except.ok (readCsvIds rows)
  | FileOpenResult.notFound => Except.ok []
  | FileOpenResult.openError => Except.error ()

/-- Resolved-set filter (backfill-edition.rs, lines 57-61): keep the
candidates whose id is not in the processed set. -/
def filterCandidates (cands : List Candidate) (resolved : List Int) : List Candidate :=
  cands.filter (fun c => ! resolved.contains c.id)

/-- Result of inspecting the crate file of one candidate
(backfill-edition.rs, lines 104-125): the file cannot be opened, the
tarball cannot be processed, or the manifest yields an optional
edition. -/
inductive InspectResult
  | openFail
  | tarballFail
  | ok (edition : Option String)
deriving DecidableEq

/-- Worker step for one candidate (backfill-edition.rs, lines 97-128
together with the writer formatting of lines 78-86): failures send
nothing to the channel, successes send the id with the quoted edition,
or with the sentinel "NULL" when the manifest has no edition. -/
def workerEmit (insp : Candidate → InspectResult) (c : Candidate) : Option EditionRow :=
  match insp c with
  | InspectResult.openFail => none
  | InspectResult.tarballFail => none
  | InspectResult.ok (some ed) => some (c.id, "\x27" ++ ed ++ "\x27")
  | InspectResult.ok none => some (c.id, "NULL")

/-- Rows appended to the journal by one run: filter the candidates by
the resolved set read from the current journal, then keep the rows the
workers emit. -/
def runAppend (j : List EditionRow) (cands : List Candidate)
    (insp : Candidate → InspectResult) : List EditionRow :=
  (filterCandidates cands (readCsvIds j)).filterMap (workerEmit insp)

/-- Journal contents after one run: the old rows with the emitted rows
appended (the writer opens the file in append mode, lines 68-72). -/
def runJournal (j : List EditionRow) (cands : List Candidate)
    (insp : Candidate → InspectResult) : List EditionRow :=
  j ++ runAppend j cands insp

/-- C6: a candidate whose inspection fails (file open failure or tarball
processing failure) contributes nothing to the journal: its id is not
among the appended rows, not in the journal after the run (provided it
was not journaled before, which is what its selection as a candidate
means), and the candidate survives the resolved-set filter of the next
run over an unchanged store.  The id-uniqueness hypothesis reflects that
candidate ids are primary keys of the store query. -/
theorem C6_skip_safety (j : List EditionRow) (cands : List Candidate)
    (insp : Candidate → InspectResult) (c : Candidate)
    (hc : c ∈ cands)
    (hfail : insp c = InspectResult.openFail ∨ insp c = InspectResult.tarballFail)
    (hid : ∀ c' ∈ cands, c'.id = c.id → c' = c)
    (hnew : c.id ∉ j.map Prod.fst) :
    c.id ∉ (runAppend j cands insp).map Prod.fst ∧
    c.id ∉ (runJournal j cands insp).map Prod.fst ∧
    c ∈ filterCandidates cands (readCsvIds (runJournal j cands insp)) := by
  have hworker_none : workerEmit insp c = none := by
    rcases hfail with hf | hf <;> simp [workerEmit, hf]
  have h1 : c.id ∉ (runAppend j cands insp).map Prod.fst := by
    intro hmem
    rcases List.mem_map.mp hmem with ⟨row, hrow, hfst⟩
    rcases List.mem_filterMap.mp hrow with ⟨c', hc', hemit⟩
    have hc'cands : c' ∈ cands := List.mem_of_mem_filter hc'
    have hc'id : row.fst = c'.id := by
      cases hinsp : insp c' with
      | openFail => simp [workerEmit, hinsp] at hemit
      | tarballFail => simp [workerEmit, hinsp] at hemit
      | ok ed =>
        cases ed with
        | some e =>
          simp only [workerEmit, hinsp] at hemit
          rw [← Option.some_inj.mp hemit]
        | none =>
          simp only [workerEmit, hinsp] at hemit
          rw [← Option.some_inj.mp hemit]
    have hceq : c' = c := hid c' hc'cands (by rw [← hc'id, hfst])
    rw [hceq, hworker_none] at hemit
    cases hemit
  have h2 : c.id ∉ (runJournal j cands insp).map Prod.fst := by
    intro hmem
    rw [runJournal, List.map_append] at hmem
    rcases List.mem_append.mp hmem with hmem | hmem
    · exact hnew hmem
    · exact h1 hmem
  have h3 : c.id ∉ readCsvIds (runJournal j cands insp) := by
    intro hmem
    exact h2 (((List.drop_sublist 1 _).map Prod.fst).subset hmem)
  exact ⟨h1, h2, List.mem_filter.mpr ⟨hc, by simpa using h3⟩⟩

/-- C6 witness data: two candidates, the crate file of the second one
cannot be opened, the journal already holds an unrelated row. -/
def c6cands : List Candidate := [⟨1, "a", "1.0.0"⟩, ⟨2, "b", "2.0.0"⟩]

/-- C6 witness inspection: candidate 2 fails, everything else succeeds. -/
def c6insp : Candidate → InspectResult :=
  fun c => if c.id = 2 then InspectResult.openFail else InspectResult.ok (some "2015")

/-- C6 witness journal before the run. -/
def c6journal : List EditionRow := [(5, "\x272015\x27")]

/-- C6 witness candidate whose inspection fails. -/
def c6cand : Candidate := ⟨2, "b", "2.0.0"⟩

/-- C6, witness: the skip-safety theorem applied to the concrete data. -/
theorem C6_skip_safety_witness :
    c6cand.id ∉ (runAppend c6journal c6cands c6insp).map Prod.fst ∧
    c6cand.id ∉ (runJournal c6journal c6cands c6insp).map Prod.fst ∧
    c6cand ∈ filterCandidates c6cands (readCsvIds (runJournal c6journal c6cands c6insp)) :=
  C6_skip_safety c6journal c6cands c6insp c6cand (by decide) (Or.inl (by decide))
    (by decide) (by decide)

/-- C7: the resolved-set filter is a pure function keeping exactly the
candidates whose id is outside the resolved set, in their original
order (the result is a sublist of the input), and read_csv maps a
missing journal file to the empty resolved set while any other open
failure is an error. -/
theorem C7_filter_and_absent :
    read_csv FileOpenResult.notFound = Except.ok [] ∧
    read_csv FileOpenResult.openError = Except.error () ∧
    (∀ (cands : List Candidate) (resolved : List Int) (c : Candidate),
      c ∈ filterCandidates cands resolved ↔ c ∈ cands ∧ c.id ∉ resolved) ∧
    (∀ (cands : List Candidate) (resolved : List Int),
      (filterCandidates cands resolved).Sublist cands) := by
  refine ⟨rfl, rfl, ?_, ?_⟩
  · intro cands resolved c
    simp [filterCandidates, List.mem_filter]
  · intro cands resolved
    exact List.filter_sublist _

/-- C8 failing-input data: a single candidate, always inspected
successfully with edition 2015. -/
def c8cand : Candidate := ⟨1, "serde", "1.0.0"⟩

/-- C8 failing-input inspection result. -/
def c8insp : Candidate → InspectResult := fun _ => InspectResult.ok (some "2015")

/-- Journal after the first run on an empty journal. -/
def c8run1 : List EditionRow := runJournal [] [c8cand] c8insp

/-- Journal after the second run against the unchanged store and
artifact set. -/
def c8run2 : List EditionRow := runJournal c8run1 [c8cand] c8insp

/-- C8: evaluation at the failing input.  The first run journals the
only candidate; because read_csv consumes the first journal record as a
CSV header (the writer wrote no header), the second run reads an empty
resolved set, re-selects the already-journaled candidate, re-inspects
it and appends a duplicate row: the second run is not a no-op. -/
theorem C8_header_loss :
    c8run1 = [(1, "\x272015\x27")] ∧
    readCsvIds c8run1 = [] ∧
    filterCandidates [c8cand] (readCsvIds c8run1) = [c8cand] ∧
    c8run2 = c8run1 ++ [(1, "\x272015\x27")] ∧
    c8run2 ≠ c8run1 := by
  refine ⟨rfl, rfl, rfl, rfl, by decide⟩

/-- C9, counterexample: a sentinel entry stored in the first journal row
is consumed as the CSV header by read_csv, so its record id does NOT
remain in the resolved set used for filtering, contrary to the claim. -/
theorem C9_counterexample :
    readCsvIds [(7, "NULL")] = [] ∧ (7 : Int) ∉ readCsvIds [(7, "NULL")] := by
  refine ⟨rfl, by decide⟩

/-- C9, amended: the Batch Compiler discards every sentinel ("NULL")
entry, so no record of any produced batch carries the sentinel value;
and the id of every sentinel entry beyond the first journal record
remains in the resolved set used for filtering.  The entry in the first
journal record is the exception forced by the header-consuming default
csv reader: it reaches neither the batches nor the resolved set. -/
theorem C9_sentinel_discard (rows : List Rec) (n : Nat) (j : List EditionRow) (r : EditionRow) :
    (∀ b ∈ editionBatches rows n, ∀ q ∈ b, recField q 1 ≠ "NULL") ∧
    (r ∈ j.drop 1 → r.2 = "NULL" → r.1 ∈ readCsvIds j) := by
  constructor
  · intro b hb q hq
    have hmem : q ∈ editionEntries rows := chunksOf_mem n _ b q hb hq
    have := List.of_mem_filter hmem
    simpa using this
  · intro hr _
    exact List.mem_map_of_mem Prod.fst hr

/-- C9, witness: the amended theorem applied to a concrete journal on
the batch side and to a concrete sentinel row on the resolved-set
side. -/
theorem C9_sentinel_discard_witness :
    recField ["8", "\x272015\x27"] 1 ≠ "NULL" ∧
    (7 : Int) ∈ readCsvIds [(5, "\x272015\x27"), (7, "NULL")] :=
  ⟨(C9_sentinel_discard [["0", "H"], ["8", "\x272015\x27"]] 1 [] (0, "")).1
      [["8", "\x272015\x27"]] (by decide) ["8", "\x272015\x27"] (by decide),
   (C9_sentinel_discard [] 1 [(5, "\x272015\x27"), (7, "NULL")] (7, "NULL")).2
      (by decide) (by decide)⟩

/-!
Links backfill (backfill-links.rs, lines 38-69).

The parallel workers produce one tuple (crate name, version number,
version id, links) per successful candidate; the collected vector is
sorted with `par_sort` (the lexicographic `Ord` of the Rust tuple) and
then rendered sequentially, one UPDATE statement per line.  The tuple
order is embedded with the lexicographic order on nested `Lex` pairs.
-/

/-- One collected result of the links backfill: the Rust tuple
`(name, version, id, links)` with its lexicographic order. -/
abbrev LinkRow := Lex (String × Lex (String × Lex (Int × String)))

/-- Build a links result tuple. -/
def mkLinkRow (name num : String) (id : Int) (links : String) : LinkRow :=
  toLex (name, toLex (num, toLex (id, links)))

/-- One rendered line (backfill-links.rs, lines 64-69). -/
def linkLine (r : LinkRow) : String :=
  "UPDATE versions SET links = \x27" ++ (ofLex (ofLex (ofLex r).2).2).2
    ++ "\x27 WHERE id = " ++ toString (ofLex (ofLex (ofLex r).2).2).1
    ++ "; -- " ++ (ofLex r).1 ++ " " ++ (ofLex (ofLex r).2).1 ++ "\n"

/-- The `versions_with_links.par_sort()` call (backfill-links.rs,
line 61): sort the collected tuples by their lexicographic order. -/
def sortLinks (l : List LinkRow) : List LinkRow :=
  l.mergeSort (fun a b => decide (a ≤ b))

/-- Content of the generated links-backfill.sql file: the sorted results
rendered line by line (backfill-links.rs, lines 63-69). -/
def renderLinksSql (l : List LinkRow) : String :=
  String.join ((sortLinks l).map linkLine)

/-- C10: the links backfill sorts the collected results before
rendering, so any two collection orders of the same result set (any two
permutations, as produced by differently interleaved parallel workers)
generate identical SQL file contents. -/
theorem C10_render_perm_invariant (l₁ l₂ : List LinkRow) (h : l₁.Perm l₂) :
    renderLinksSql l₁ = renderLinksSql l₂ := by
  have hs : sortLinks l₁ = sortLinks l₂ := by
    apply List.eq_of_perm_of_sorted (r := (· ≤ · : LinkRow → LinkRow → Prop))
    · exact (List.mergeSort_perm l₁ _).trans (h.trans (List.mergeSort_perm l₂ _).symm)
    · exact List.sorted_mergeSort' l₁
    · exact List.sorted_mergeSort' l₂
  unfold renderLinksSql
  rw [hs]

/-- C10, witness: two worker completion orders of the same two results
render the same file. -/
theorem C10_render_perm_invariant_witness :
    renderLinksSql [mkLinkRow "a" "1.0.0" 1 "z", mkLinkRow "b" "2.0.0" 2 "git"]
      = renderLinksSql [mkLinkRow "b" "2.0.0" 2 "git", mkLinkRow "a" "1.0.0" 1 "z"] :=
  C10_render_perm_invariant _ _ (List.Perm.swap _ _ _)
